import Mathlib

/-!
Shallow embedding of the export pipeline of `src/src-tauri/src/main.rs`
(the rVJ desktop video editor backend).

The embedding models the Tauri command `export_video` as a pure function
from the request data plus an `Env` — the outcomes of the external
effects the code performs (does the ffmpeg binary exist, does the scratch
directory pre-exist, does each external trim process exit successfully,
do the manifest file operations succeed, does the final mux exit
successfully, does each progress emission succeed, does the recursive
directory removal succeed) — to a `RunResult`: the returned
`Result<String, String>` (plus a distinguished `panicked` outcome for the
`.unwrap()` calls), the ordered trace of observable effects (`Event`s),
and whether the scratch directory exists after the call returns.

Modelling notes, faithful to the source:
- `f64` clip times are modelled as `ℚ`.
- I/O errors of `Command::status()` itself (spawn failure) and of the
  resource-path resolution are early-`return Err` paths of the same shape
  as the modelled failure flags and are not separately distinguished.
- `temp_dir.join(name)` is modelled as `tempDir ++ "/" ++ name`;
  `.replace('\x5c', "/")` is modelled as a character map, which agrees
  with `str::replace` for a single-character pattern.
- error/panic message strings keep the source's fixed prefixes but drop
  interpolated debug payloads that the claims do not mention.
-/

/-- Mirrors the Rust struct `ClipData` (`file_path`, `start_time`,
`end_time`); the `f64` times are modelled as rationals. -/
structure ClipData where
  file_path : String
  start_time : ℚ
  end_time : ℚ

/-- Mirrors `let duration = clip.end_time - clip.start_time;` (line 57). -/
def clipDuration (c : ClipData) : ℚ :=
  c.end_time - c.start_time

/-- The outcome of one `export_video` call: `Ok(output_path)`,
`Err(message)`, or a Rust panic (reachable through the `.unwrap()`
on `window.emit`). -/
inductive RunOutcome where
  | ok (out : String)
  | err (msg : String)
  | panicked (msg : String)
  deriving DecidableEq

/-- Observable effects of `export_video`, in program order:
directory creation, spawning the per-clip trim process, emitting a
progress percentage, writing the concat manifest file, spawning the
final mux process, and recursively removing the scratch directory. -/
inductive Event where
  | createDir (path : String)
  | spawnTrim (i : Nat) (clip : ClipData)
  | emit (percent : Nat)
  | writeManifest (content : String)
  | spawnMux (args : List String)
  | removeDir (path : String)

/-- Outcomes of the effects `export_video` performs, supplied by the
surrounding system: one flag or indexed family of flags per external
effect in the source. -/
structure Env where
  ffmpegExists : Bool
  tempDirExists : Bool
  createTempOk : Bool
  trimOk : Nat → Bool
  manifestCreateOk : Bool
  manifestWriteOk : Bool
  muxOk : Bool
  emitOk : Nat → Bool
  removeOk : Bool

/-- Result of one modelled `export_video` call: the returned outcome, the
ordered effect trace, and whether the scratch directory exists after the
call returns. -/
structure RunResult where
  outcome : RunOutcome
  events : List Event
  tempExists : Bool

/-- Models `path.replace('\x5c', "/")` (line 79): every backslash
character becomes a forward slash.  For the single-character pattern of
the source this character map agrees with `str::replace`. -/
def normalizeSlashes (s : String) : String :=
  ⟨s.data.map (fun c => if c = '\\' then '/' else c)⟩

/-- Models `temp_dir.join(format ... "clip_{i}.ts")` (lines 54 and 55). -/
def segPath (tempDir : String) (i : Nat) : String :=
  tempDir ++ "/clip_" ++ toString i ++ ".ts"

/-- One manifest record, `file '<path>'` with separators normalized
(line 79); the apostrophe is written as its escape. -/
def manifestLine (tempDir : String) (i : Nat) : String :=
  "file \x27" ++ normalizeSlashes (segPath tempDir i) ++ "\x27"

/-- Models `temp_dir.join("concat.txt")` (line 87). -/
def concatPath (tempDir : String) : String :=
  tempDir ++ "/concat.txt"

/-- Models line 82,
`((i + 1) as f64 / (total_clips + 1) as f64 * 50.0) as u8`.
The `as u8` cast truncates toward zero.  For every ratio
`(i+1)/(total+1)` whose denominator is below `2^40`, the IEEE-double
computation truncates to `⌊50 (i+1) / (total+1)⌋`, with a single
exception: when `(i+1)/(total+1)` is exactly `29/50`, accumulated
rounding error puts the double product just below `29` and the cast
yields `28`.  (For non-integer exact values `50(i+1)/(total+1)` the
distance to the nearest integer is at least `1/(total+1)`, far above the
`≈1.2e-14` accumulated rounding error at this magnitude; the integer
cases reduce to the ratios `k/50`, `1 ≤ k ≤ 49`, of which only `29/50`
rounds below its integer.) -/
def progressOf (total i : Nat) : Nat :=
  if 50 * (i + 1) = 29 * (total + 1) then 28
  else 50 * (i + 1) / (total + 1)

/-- The error message of line 76 for a trim process that exits
non-zero. -/
def trimErrMsg (i : Nat) : String :=
  "FFmpeg trim exited with error for clip " ++ toString i

/-- The panic message of the `.unwrap()` on `window.emit`
(lines 83 and 118). -/
def emitPanicMsg : String :=
  "called Result::unwrap on an Err value"

/-- The argument list of the final mux invocation (lines 94 to 107). -/
def muxArgs (concatFile audioPath outputPath : String) : List String :=
  ["-y",
   "-f", "concat",
   "-safe", "0",
   "-i", concatFile,
   "-i", audioPath,
   "-map", "0:v",
   "-map", "1:a",
   "-c:v", "libx264",
   "-preset", "medium",
   "-c:a", "aac",
   "-shortest",
   outputPath]

/-- How the per-clip loop (lines 53 to 84) aborts early: a trim process
exited non-zero (`return Err` at line 76), or a progress emission failed
and the `.unwrap()` at line 83 panicked. -/
inductive TrimAbort where
  | trimFailed (i : Nat)
  | emitFailed

/-- The per-clip loop of lines 53 to 84, processing `clips` starting at
absolute index `i`: for each clip spawn a trim process; on non-zero exit
abort with `TrimAbort.trimFailed`; otherwise append the manifest record
for the produced segment to the accumulated concat content, then emit
the progress percentage, panicking (`TrimAbort.emitFailed`) when the
emission fails.  Returns the effect trace, the accumulated concat
content, and the abort reason if any. -/
def trimLoop (env : Env) (tempDir : String) (total : Nat) :
    Nat → List ClipData → List Event × String × Option TrimAbort
  | _, [] => ([], "", none)
  | i, clip :: rest =>
    if env.trimOk i then
      let line := manifestLine tempDir i ++ "\n"
      if env.emitOk i then
        let r := trimLoop env tempDir total (i + 1) rest
        (Event.spawnTrim i clip :: Event.emit (progressOf total i) :: r.1,
         line ++ r.2.1, r.2.2)
      else
        ([Event.spawnTrim i clip, Event.emit (progressOf total i)],
         line, some TrimAbort.emitFailed)
    else
      ([Event.spawnTrim i clip], "", some (TrimAbort.trimFailed i))

/-- The modelled `export_video` command (lines 26 to 121): resolve the
ffmpeg binary (fail if absent), create the scratch directory if absent
(fail if creation fails), run the trim loop, write the concat manifest,
spawn the final mux, remove the scratch directory ignoring the removal's
own failure, emit `100`, and return the output path. -/
def export_video (env : Env) (tempDir : String) (clips : List ClipData)
    (audio_path output_path : String) : RunResult :=
  if !env.ffmpegExists then
    ⟨RunOutcome.err "FFmpeg binary not found", [], env.tempDirExists⟩
  else if !env.tempDirExists && !env.createTempOk then
    ⟨RunOutcome.err "Failed to create temp dir", [Event.createDir tempDir], false⟩
  else
    let createEvents := if env.tempDirExists then [] else [Event.createDir tempDir]
    let t := trimLoop env tempDir clips.length 0 clips
    match t.2.2 with
    | some (TrimAbort.trimFailed i) =>
        ⟨RunOutcome.err (trimErrMsg i), createEvents ++ t.1, true⟩
    | some TrimAbort.emitFailed =>
        ⟨RunOutcome.panicked emitPanicMsg, createEvents ++ t.1, true⟩
    | none =>
        if !env.manifestCreateOk then
          ⟨RunOutcome.err "Failed to create concat file", createEvents ++ t.1, true⟩
        else if !env.manifestWriteOk then
          ⟨RunOutcome.err "Failed to write concat file", createEvents ++ t.1, true⟩
        else if !env.muxOk then
          ⟨RunOutcome.err "FFmpeg final concat exited with error",
            createEvents ++ t.1 ++
              [Event.writeManifest t.2.1,
               Event.spawnMux (muxArgs (concatPath tempDir) audio_path output_path)],
            true⟩
        else if !env.emitOk clips.length then
          ⟨RunOutcome.panicked emitPanicMsg,
            createEvents ++ t.1 ++
              [Event.writeManifest t.2.1,
               Event.spawnMux (muxArgs (concatPath tempDir) audio_path output_path),
               Event.removeDir tempDir, Event.emit 100],
            !env.removeOk⟩
        else
          ⟨RunOutcome.ok output_path,
            createEvents ++ t.1 ++
              [Event.writeManifest t.2.1,
               Event.spawnMux (muxArgs (concatPath tempDir) audio_path output_path),
               Event.removeDir tempDir, Event.emit 100],
            !env.removeOk⟩

/-- The modelled `validate_file_path` command (lines 124 to 128): the
filesystem is a predicate `fsExists` on paths; the command returns
`Ok(path.exists())` and has no error return. -/
def validate_file_path (fsExists : String → Bool) (path : String) :
    Except String Bool :=
  Except.ok (fsExists path)

/-- Percentage carried by an `emit` event, if the event is one. -/
def eventPercent : Event → Option Nat
  | Event.emit p => some p
  | _ => none

/-- Content carried by a `writeManifest` event, if the event is one. -/
def eventManifest : Event → Option String
  | Event.writeManifest c => some c
  | _ => none

/-- Argument list carried by a `spawnMux` event, if the event is one. -/
def eventMux : Event → Option (List String)
  | Event.spawnMux args => some args
  | _ => none

/-- Path carried by a `createDir` event, if the event is one. -/
def eventCreatedDir : Event → Option String
  | Event.createDir p => some p
  | _ => none

/-- Path carried by a `removeDir` event, if the event is one. -/
def eventRemovedDir : Event → Option String
  | Event.removeDir p => some p
  | _ => none

/-- Index carried by a `spawnTrim` event, if the event is one. -/
def eventTrimIdx : Event → Option Nat
  | Event.spawnTrim i _ => some i
  | _ => none

/-- The progress percentages emitted along a trace, in order. -/
def emittedPercents (evs : List Event) : List Nat :=
  evs.filterMap eventPercent

/-- The manifest contents written along a trace, in order. -/
def manifestWrites (evs : List Event) : List String :=
  evs.filterMap eventManifest

/-- The mux invocations spawned along a trace, in order. -/
def muxSpawns (evs : List Event) : List (List String) :=
  evs.filterMap eventMux

/-- The directories created along a trace, in order. -/
def createdDirs (evs : List Event) : List String :=
  evs.filterMap eventCreatedDir

/-- The directories removed along a trace, in order. -/
def removeDirEvents (evs : List Event) : List String :=
  evs.filterMap eventRemovedDir

/-- The trim-process spawns along a trace, by clip index, in order. -/
def trimSpawnIndices (evs : List Event) : List Nat :=
  evs.filterMap eventTrimIdx

/-- The trace a fully successful trim loop produces for `clips` starting
at absolute index `i`. -/
def trimEventsFrom (total : Nat) : Nat → List ClipData → List Event
  | _, [] => []
  | i, clip :: rest =>
      Event.spawnTrim i clip :: Event.emit (progressOf total i) ::
        trimEventsFrom total (i + 1) rest

/-- The concat content accumulated for `n` clips starting at absolute
index `i`. -/
def concatContentFrom (tempDir : String) : Nat → Nat → String
  | _, 0 => ""
  | i, n + 1 => (manifestLine tempDir i ++ "\n") ++ concatContentFrom tempDir (i + 1) n

/-- The manifest records for `n` clips starting at absolute index `i`,
as a list of lines. -/
def manifestLines (tempDir : String) : Nat → Nat → List String
  | _, 0 => []
  | i, n + 1 => manifestLine tempDir i :: manifestLines tempDir (i + 1) n

/-- The progress percentages a fully successful trim loop emits for `n`
clips starting at absolute index `i`. -/
def percentsFrom (total : Nat) : Nat → Nat → List Nat
  | _, 0 => []
  | i, n + 1 => progressOf total i :: percentsFrom total (i + 1) n

/-- An environment in which every external effect succeeds and the
scratch directory does not pre-exist. -/
def allOkEnv : Env :=
  { ffmpegExists := true
    tempDirExists := false
    createTempOk := true
    trimOk := fun _ => true
    manifestCreateOk := true
    manifestWriteOk := true
    muxOk := true
    emitOk := fun _ => true
    removeOk := true }

/-! ## Helper lemmas about the trim loop and the traces it produces -/

theorem trimLoop_allOk (env : Env) (tempDir : String) (total : Nat)
    (ht : ∀ i, env.trimOk i = true) (he : ∀ i, env.emitOk i = true) :
    ∀ (clips : List ClipData) (i : Nat),
      trimLoop env tempDir total i clips =
        (trimEventsFrom total i clips,
         concatContentFrom tempDir i clips.length, none) := by
  intro clips
  induction clips with
  | nil => intro i; rfl
  | cons clip rest ih =>
    intro i
    simp only [trimLoop, ht i, he i, if_true, ih (i + 1)]
    simp [trimEventsFrom, concatContentFrom, List.length_cons]

theorem trimLoop_events_mem (env : Env) (tempDir : String) (total : Nat) :
    ∀ (clips : List ClipData) (i : Nat) (e : Event),
      e ∈ (trimLoop env tempDir total i clips).1 →
      (∃ j c, e = Event.spawnTrim j c) ∨ (∃ p, e = Event.emit p) := by
  intro clips
  induction clips with
  | nil => intro i e he2; simp [trimLoop] at he2
  | cons clip rest ih =>
    intro i e he2
    cases h1 : env.trimOk i with
    | false =>
      simp only [trimLoop, h1, Bool.false_eq_true, if_false, List.mem_singleton] at he2
      exact Or.inl ⟨i, clip, he2⟩
    | true =>
      cases h2 : env.emitOk i with
      | false =>
        simp only [trimLoop, h1, h2, Bool.false_eq_true, if_true, if_false,
          List.mem_cons, List.mem_singleton] at he2
        rcases he2 with h | h
        · exact Or.inl ⟨i, clip, h⟩
        · exact Or.inr ⟨progressOf total i, by simpa using h⟩
      | true =>
        simp only [trimLoop, h1, h2, if_true, List.mem_cons] at he2
        rcases he2 with h | h | h
        · exact Or.inl ⟨i, clip, h⟩
        · exact Or.inr ⟨progressOf total i, h⟩
        · exact ih (i + 1) e h

theorem trimEventsFrom_mem (total : Nat) :
    ∀ (clips : List ClipData) (i : Nat) (e : Event),
      e ∈ trimEventsFrom total i clips →
      (∃ j c, e = Event.spawnTrim j c) ∨ (∃ p, e = Event.emit p) := by
  intro clips
  induction clips with
  | nil => intro i e he2; simp [trimEventsFrom] at he2
  | cons clip rest ih =>
    intro i e he2
    simp only [trimEventsFrom, List.mem_cons] at he2
    rcases he2 with h | h | h
    · exact Or.inl ⟨i, clip, h⟩
    · exact Or.inr ⟨progressOf total i, h⟩
    · exact ih (i + 1) e h

theorem manifestWrites_trimLoop (env : Env) (tempDir : String)
    (total : Nat) (clips : List ClipData) (i : Nat) :
    manifestWrites (trimLoop env tempDir total i clips).1 = [] := by
  refine List.filterMap_eq_nil_iff.mpr ?_
  intro e he
  rcases trimLoop_events_mem env tempDir total clips i e he with ⟨j, c, rfl⟩ | ⟨p, rfl⟩ <;> rfl

theorem muxSpawns_trimLoop (env : Env) (tempDir : String)
    (total : Nat) (clips : List ClipData) (i : Nat) :
    muxSpawns (trimLoop env tempDir total i clips).1 = [] := by
  refine List.filterMap_eq_nil_iff.mpr ?_
  intro e he
  rcases trimLoop_events_mem env tempDir total clips i e he with ⟨j, c, rfl⟩ | ⟨p, rfl⟩ <;> rfl

theorem createdDirs_trimLoop (env : Env) (tempDir : String)
    (total : Nat) (clips : List ClipData) (i : Nat) :
    createdDirs (trimLoop env tempDir total i clips).1 = [] := by
  refine List.filterMap_eq_nil_iff.mpr ?_
  intro e he
  rcases trimLoop_events_mem env tempDir total clips i e he with ⟨j, c, rfl⟩ | ⟨p, rfl⟩ <;> rfl

theorem removeDirEvents_trimLoop (env : Env) (tempDir : String)
    (total : Nat) (clips : List ClipData) (i : Nat) :
    removeDirEvents (trimLoop env tempDir total i clips).1 = [] := by
  refine List.filterMap_eq_nil_iff.mpr ?_
  intro e he
  rcases trimLoop_events_mem env tempDir total clips i e he with ⟨j, c, rfl⟩ | ⟨p, rfl⟩ <;> rfl

theorem manifestWrites_trimEventsFrom (total : Nat) (clips : List ClipData) (i : Nat) :
    manifestWrites (trimEventsFrom total i clips) = [] := by
  refine List.filterMap_eq_nil_iff.mpr ?_
  intro e he
  rcases trimEventsFrom_mem total clips i e he with ⟨j, c, rfl⟩ | ⟨p, rfl⟩ <;> rfl

theorem muxSpawns_trimEventsFrom (total : Nat) (clips : List ClipData) (i : Nat) :
    muxSpawns (trimEventsFrom total i clips) = [] := by
  refine List.filterMap_eq_nil_iff.mpr ?_
  intro e he
  rcases trimEventsFrom_mem total clips i e he with ⟨j, c, rfl⟩ | ⟨p, rfl⟩ <;> rfl

theorem createdDirs_trimEventsFrom (total : Nat) (clips : List ClipData) (i : Nat) :
    createdDirs (trimEventsFrom total i clips) = [] := by
  refine List.filterMap_eq_nil_iff.mpr ?_
  intro e he
  rcases trimEventsFrom_mem total clips i e he with ⟨j, c, rfl⟩ | ⟨p, rfl⟩ <;> rfl

theorem removeDirEvents_trimEventsFrom (total : Nat) (clips : List ClipData) (i : Nat) :
    removeDirEvents (trimEventsFrom total i clips) = [] := by
  refine List.filterMap_eq_nil_iff.mpr ?_
  intro e he
  rcases trimEventsFrom_mem total clips i e he with ⟨j, c, rfl⟩ | ⟨p, rfl⟩ <;> rfl

theorem emittedPercents_trimEventsFrom (total : Nat) :
    ∀ (clips : List ClipData) (i : Nat),
      emittedPercents (trimEventsFrom total i clips) =
        percentsFrom total i clips.length := by
  intro clips
  induction clips with
  | nil => intro i; rfl
  | cons clip rest ih =>
    intro i
    simp only [trimEventsFrom, emittedPercents, List.filterMap_cons, eventPercent,
      List.length_cons, percentsFrom]
    simpa [emittedPercents] using ih (i + 1)

theorem trimSpawnIndices_trimEventsFrom (total : Nat) :
    ∀ (clips : List ClipData) (i : Nat),
      trimSpawnIndices (trimEventsFrom total i clips) =
        List.range' i clips.length := by
  intro clips
  induction clips with
  | nil => intro i; rfl
  | cons clip rest ih =>
    intro i
    simp only [trimEventsFrom, trimSpawnIndices, List.filterMap_cons, eventTrimIdx,
      List.length_cons, List.range'_succ]
    simpa [trimSpawnIndices] using ih (i + 1)

/-! ## Arithmetic lemmas about the progress percentage -/

theorem progressOf_mono (total i : Nat) :
    progressOf total i ≤ progressOf total (i + 1) := by
  unfold progressOf
  split_ifs with h1 h2 h2
  · exact le_refl 28
  · have h29 : 29 ≤ 50 * (i + 1 + 1) / (total + 1) :=
      (Nat.le_div_iff_mul_le (Nat.succ_pos total)).mpr (by omega)
    omega
  · have hlt : 50 * (i + 1) / (total + 1) < 29 :=
      (Nat.div_lt_iff_lt_mul (Nat.succ_pos total)).mpr (by omega)
    omega
  · exact Nat.div_le_div_right (by omega)

theorem progressOf_le (total i : Nat) (h : i < total) :
    progressOf total i ≤ 49 := by
  unfold progressOf
  split_ifs with h1
  · omega
  · have hlt : 50 * (i + 1) / (total + 1) < 50 :=
      (Nat.div_lt_iff_lt_mul (Nat.succ_pos total)).mpr (by omega)
    omega

theorem percentsFrom_length (total : Nat) :
    ∀ (n i : Nat), (percentsFrom total i n).length = n := by
  intro n
  induction n with
  | zero => intro i; rfl
  | succ m ih => intro i; simp [percentsFrom, ih (i + 1)]

theorem percentsFrom_getElem (total : Nat) :
    ∀ (n i k : Nat), k < n →
      (percentsFrom total i n)[k]? = some (progressOf total (i + k)) := by
  intro n
  induction n with
  | zero => intro i k h; omega
  | succ m ih =>
    intro i k h
    cases k with
    | zero => simp [percentsFrom]
    | succ k2 =>
      have := ih (i + 1) k2 (by omega)
      have harith : i + 1 + k2 = i + (k2 + 1) := by omega
      rw [harith] at this
      simpa [percentsFrom] using this

theorem percentsFrom_bounded (total : Nat) :
    ∀ (n i : Nat), i + n ≤ total →
      ∀ p ∈ percentsFrom total i n, p ≤ 49 := by
  intro n
  induction n with
  | zero => intro i _ p hp; simp [percentsFrom] at hp
  | succ m ih =>
    intro i hi p hp
    simp only [percentsFrom, List.mem_cons] at hp
    rcases hp with rfl | hp
    · exact progressOf_le total i (by omega)
    · exact ih (i + 1) (by omega) p hp

theorem percentsFrom_chain (total : Nat) :
    ∀ (n i : Nat), List.Chain' (fun a b => a ≤ b) (percentsFrom total i n) := by
  intro n
  induction n with
  | zero => intro i; simp [percentsFrom]
  | succ m ih =>
    intro i
    rw [show percentsFrom total i (m + 1) =
      progressOf total i :: percentsFrom total (i + 1) m from rfl]
    refine List.chain'_cons'.mpr ⟨?_, ih (i + 1)⟩
    intro b hb
    cases m with
    | zero => simp [percentsFrom] at hb
    | succ m2 =>
      rw [show percentsFrom total (i + 1) (m2 + 1) =
        progressOf total (i + 1) :: percentsFrom total (i + 2) m2 from rfl] at hb
      simp only [List.head?_cons, Option.mem_def, Option.some.injEq] at hb
      rw [← hb]
      exact progressOf_mono total i

/-! ## Shape of a fully successful run and of a run aborted by a trim -/

theorem export_allOk (env : Env) (tempDir : String) (clips : List ClipData)
    (a o : String)
    (hf : env.ffmpegExists = true)
    (hc : env.tempDirExists = true ∨ env.createTempOk = true)
    (ht : ∀ i, env.trimOk i = true)
    (he : ∀ i, env.emitOk i = true)
    (hm1 : env.manifestCreateOk = true)
    (hm2 : env.manifestWriteOk = true)
    (hx : env.muxOk = true) :
    export_video env tempDir clips a o =
      ⟨RunOutcome.ok o,
       (if env.tempDirExists then [] else [Event.createDir tempDir]) ++
         trimEventsFrom clips.length 0 clips ++
         [Event.writeManifest (concatContentFrom tempDir 0 clips.length),
          Event.spawnMux (muxArgs (concatPath tempDir) a o),
          Event.removeDir tempDir, Event.emit 100],
       !env.removeOk⟩ := by
  have hcond : (!env.tempDirExists && !env.createTempOk) = false := by
    rcases hc with h | h <;> simp [h]
  simp [export_video, hf, hcond,
    trimLoop_allOk env tempDir clips.length ht he clips 0,
    hm1, hm2, hx, he clips.length]

theorem trimLoop_failAt (env : Env) (tempDir : String) (total : Nat) :
    ∀ (clips : List ClipData) (i m : Nat), m < clips.length →
      (∀ j, j < m → env.trimOk (i + j) = true) →
      (∀ j, j < m → env.emitOk (i + j) = true) →
      env.trimOk (i + m) = false →
      (trimLoop env tempDir total i clips).2.2 =
        some (TrimAbort.trimFailed (i + m)) := by
  intro clips
  induction clips with
  | nil => intro i m hm; simp at hm
  | cons clip rest ih =>
    intro i m hm ht he hfail
    cases m with
    | zero =>
      have h0 : env.trimOk i = false := by simpa using hfail
      simp [trimLoop, h0]
    | succ m2 =>
      have h0 : env.trimOk i = true := by simpa using ht 0 (by omega)
      have e0 : env.emitOk i = true := by simpa using he 0 (by omega)
      have ht2 : ∀ j, j < m2 → env.trimOk (i + 1 + j) = true := by
        intro j hj
        have := ht (j + 1) (by omega)
        simpa [show i + (j + 1) = i + 1 + j by omega] using this
      have he2 : ∀ j, j < m2 → env.emitOk (i + 1 + j) = true := by
        intro j hj
        have := he (j + 1) (by omega)
        simpa [show i + (j + 1) = i + 1 + j by omega] using this
      have hf2 : env.trimOk (i + 1 + m2) = false := by
        simpa [show i + (m2 + 1) = i + 1 + m2 by omega] using hfail
      have := ih (i + 1) m2 (by simpa using hm) ht2 he2 hf2
      simp only [trimLoop, h0, e0, if_true]
      rw [show i + (m2 + 1) = i + 1 + m2 by omega]
      exact this

theorem outcome_export_allOk (env : Env) (tempDir : String)
    (clips : List ClipData) (a o : String)
    (hf : env.ffmpegExists = true)
    (hc : env.tempDirExists = true ∨ env.createTempOk = true)
    (ht : ∀ i, env.trimOk i = true)
    (he : ∀ i, env.emitOk i = true)
    (hm1 : env.manifestCreateOk = true)
    (hm2 : env.manifestWriteOk = true)
    (hx : env.muxOk = true) :
    (export_video env tempDir clips a o).outcome = RunOutcome.ok o := by
  rw [export_allOk env tempDir clips a o hf hc ht he hm1 hm2 hx]

theorem emitted_export_allOk (env : Env) (tempDir : String)
    (clips : List ClipData) (a o : String)
    (hf : env.ffmpegExists = true)
    (hc : env.tempDirExists = true ∨ env.createTempOk = true)
    (ht : ∀ i, env.trimOk i = true)
    (he : ∀ i, env.emitOk i = true)
    (hm1 : env.manifestCreateOk = true)
    (hm2 : env.manifestWriteOk = true)
    (hx : env.muxOk = true) :
    emittedPercents (export_video env tempDir clips a o).events =
      percentsFrom clips.length 0 clips.length ++ [100] := by
  rw [export_allOk env tempDir clips a o hf hc ht he hm1 hm2 hx]
  have h1 := emittedPercents_trimEventsFrom clips.length clips 0
  simp only [emittedPercents] at h1 ⊢
  cases htd : env.tempDirExists <;>
    simp [List.filterMap_append, h1, eventPercent]

theorem manifest_export_allOk (env : Env) (tempDir : String)
    (clips : List ClipData) (a o : String)
    (hf : env.ffmpegExists = true)
    (hc : env.tempDirExists = true ∨ env.createTempOk = true)
    (ht : ∀ i, env.trimOk i = true)
    (he : ∀ i, env.emitOk i = true)
    (hm1 : env.manifestCreateOk = true)
    (hm2 : env.manifestWriteOk = true)
    (hx : env.muxOk = true) :
    manifestWrites (export_video env tempDir clips a o).events =
      [concatContentFrom tempDir 0 clips.length] := by
  rw [export_allOk env tempDir clips a o hf hc ht he hm1 hm2 hx]
  have h1 := manifestWrites_trimEventsFrom clips.length clips 0
  simp only [manifestWrites] at h1 ⊢
  cases htd : env.tempDirExists <;>
    simp [List.filterMap_append, h1, eventManifest]

theorem mux_export_allOk (env : Env) (tempDir : String)
    (clips : List ClipData) (a o : String)
    (hf : env.ffmpegExists = true)
    (hc : env.tempDirExists = true ∨ env.createTempOk = true)
    (ht : ∀ i, env.trimOk i = true)
    (he : ∀ i, env.emitOk i = true)
    (hm1 : env.manifestCreateOk = true)
    (hm2 : env.manifestWriteOk = true)
    (hx : env.muxOk = true) :
    muxSpawns (export_video env tempDir clips a o).events =
      [muxArgs (concatPath tempDir) a o] := by
  rw [export_allOk env tempDir clips a o hf hc ht he hm1 hm2 hx]
  have h1 := muxSpawns_trimEventsFrom clips.length clips 0
  simp only [muxSpawns] at h1 ⊢
  cases htd : env.tempDirExists <;>
    simp [List.filterMap_append, h1, eventMux]

theorem trims_export_allOk (env : Env) (tempDir : String)
    (clips : List ClipData) (a o : String)
    (hf : env.ffmpegExists = true)
    (hc : env.tempDirExists = true ∨ env.createTempOk = true)
    (ht : ∀ i, env.trimOk i = true)
    (he : ∀ i, env.emitOk i = true)
    (hm1 : env.manifestCreateOk = true)
    (hm2 : env.manifestWriteOk = true)
    (hx : env.muxOk = true) :
    trimSpawnIndices (export_video env tempDir clips a o).events =
      List.range clips.length := by
  rw [export_allOk env tempDir clips a o hf hc ht he hm1 hm2 hx]
  have h1 := trimSpawnIndices_trimEventsFrom clips.length clips 0
  simp only [trimSpawnIndices] at h1 ⊢
  rw [List.range_eq_range']
  cases htd : env.tempDirExists <;>
    simp [List.filterMap_append, h1, eventTrimIdx]

/-! ## Lemmas about the manifest content -/

theorem manifestLines_length (tempDir : String) :
    ∀ (n i : Nat), (manifestLines tempDir i n).length = n := by
  intro n
  induction n with
  | zero => intro i; rfl
  | succ m ih => intro i; simp [manifestLines, ih (i + 1)]

theorem manifestLines_getElem (tempDir : String) :
    ∀ (n i k : Nat), k < n →
      (manifestLines tempDir i n)[k]? = some (manifestLine tempDir (i + k)) := by
  intro n
  induction n with
  | zero => intro i k h; omega
  | succ m ih =>
    intro i k h
    cases k with
    | zero => simp [manifestLines]
    | succ k2 =>
      have := ih (i + 1) k2 (by omega)
      have harith : i + 1 + k2 = i + (k2 + 1) := by omega
      rw [harith] at this
      simpa [manifestLines] using this

theorem concatContentFrom_eq_fold (tempDir : String) :
    ∀ (n i : Nat),
      concatContentFrom tempDir i n =
        ((manifestLines tempDir i n).map (fun l => l ++ "\n")).foldr
          (fun x y => x ++ y) "" := by
  intro n
  induction n with
  | zero => intro i; rfl
  | succ m ih =>
    intro i
    simp only [concatContentFrom, manifestLines, List.map_cons, List.foldr_cons]
    rw [ih (i + 1)]

theorem normalizeSlashes_no_backslash (s : String) :
    '\\' ∉ (normalizeSlashes s).data := by
  intro h
  have hdata : (normalizeSlashes s).data =
      s.data.map (fun c => if c = '\\' then '/' else c) := rfl
  rw [hdata] at h
  rcases List.mem_map.mp h with ⟨c, _, hc⟩
  by_cases h2 : c = '\\'
  · simp [h2] at hc
  · simp [h2] at hc

/-! ## Claim theorems -/

/-- C10: for every filesystem and every input path, `validate_file_path`
never returns an error: it always returns `Ok b`, where `b` is true
exactly when the path exists on the (modelled) filesystem. -/
theorem validate_file_path_total (fs : String → Bool) (path : String) :
    (∀ e, ¬ (validate_file_path fs path = Except.error e)) ∧
    ∃ b, validate_file_path fs path = Except.ok b ∧ (b = true ↔ fs path = true) := by
  refine ⟨?_, fs path, rfl, Iff.rfl⟩
  intro e h
  exact Except.noConfusion h

/-- Witness for C10: `validate_file_path` on a filesystem where every
path exists and the path `a.mp4`. -/
theorem validate_file_path_total_witness :
    (∀ e, ¬ (validate_file_path (fun _ => true) "a.mp4" = Except.error e)) ∧
    ∃ b, validate_file_path (fun _ => true) "a.mp4" = Except.ok b ∧
      (b = true ↔ (fun _ : String => true) "a.mp4" = true) :=
  validate_file_path_total (fun _ => true) "a.mp4"

/-- C9: on a run where all stages succeed, `export_video` spawns exactly
one final mux invocation, whose argument list selects concat-demuxer mode
(`-f concat`), takes the workspace manifest as the first `-i` input and
the audio track as the second, explicitly maps the video stream from
input 0 (`-map 0:v`) and the audio stream from input 1 (`-map 1:a`),
truncates to the shortest stream (`-shortest`), overwrites without prompt
(`-y`), and ends with the output path. -/
theorem mux_invocation_spec (env : Env) (tempDir : String)
    (clips : List ClipData) (a o : String)
    (hf : env.ffmpegExists = true)
    (hc : env.tempDirExists = true ∨ env.createTempOk = true)
    (ht : ∀ i, env.trimOk i = true)
    (he : ∀ i, env.emitOk i = true)
    (hm1 : env.manifestCreateOk = true)
    (hm2 : env.manifestWriteOk = true)
    (hx : env.muxOk = true) :
    muxSpawns (export_video env tempDir clips a o).events =
      [muxArgs (concatPath tempDir) a o] ∧
    (muxArgs (concatPath tempDir) a o)[1]? = some "-f" ∧
    (muxArgs (concatPath tempDir) a o)[2]? = some "concat" ∧
    (muxArgs (concatPath tempDir) a o)[5]? = some "-i" ∧
    (muxArgs (concatPath tempDir) a o)[6]? = some (concatPath tempDir) ∧
    (muxArgs (concatPath tempDir) a o)[7]? = some "-i" ∧
    (muxArgs (concatPath tempDir) a o)[8]? = some a ∧
    (muxArgs (concatPath tempDir) a o)[9]? = some "-map" ∧
    (muxArgs (concatPath tempDir) a o)[10]? = some "0:v" ∧
    (muxArgs (concatPath tempDir) a o)[11]? = some "-map" ∧
    (muxArgs (concatPath tempDir) a o)[12]? = some "1:a" ∧
    "-shortest" ∈ muxArgs (concatPath tempDir) a o ∧
    "-y" ∈ muxArgs (concatPath tempDir) a o ∧
    (muxArgs (concatPath tempDir) a o).getLast? = some o := by
  refine ⟨mux_export_allOk env tempDir clips a o hf hc ht he hm1 hm2 hx,
    rfl, rfl, rfl, rfl, rfl, rfl, rfl, rfl, rfl, rfl, ?_, ?_, rfl⟩
  · simp [muxArgs]
  · simp [muxArgs]

/-- Witness for C9: an all-success run on an empty clip list. -/
theorem mux_invocation_spec_witness :
    muxSpawns (export_video allOkEnv "/tmp/rvj_export" [] "music.mp3" "out.mp4").events =
      [muxArgs (concatPath "/tmp/rvj_export") "music.mp3" "out.mp4"] :=
  (mux_invocation_spec allOkEnv "/tmp/rvj_export" [] "music.mp3" "out.mp4" rfl
    (Or.inr rfl) (fun _ => rfl) (fun _ => rfl) rfl rfl rfl).1

/-- C6: on every run whose trims all succeed (and the rest succeeds),
exactly one manifest is written; its content is the fold of one
`file '<segment path>'` record per clip, lines in input clip order (the
`k`-th line references segment `k`), and every normalized segment path is
free of backslashes. -/
theorem manifest_content_spec (env : Env) (tempDir : String)
    (clips : List ClipData) (a o : String)
    (hne : clips ≠ [])
    (hf : env.ffmpegExists = true)
    (hc : env.tempDirExists = true ∨ env.createTempOk = true)
    (ht : ∀ i, env.trimOk i = true)
    (he : ∀ i, env.emitOk i = true)
    (hm1 : env.manifestCreateOk = true)
    (hm2 : env.manifestWriteOk = true)
    (hx : env.muxOk = true) :
    manifestWrites (export_video env tempDir clips a o).events =
      [concatContentFrom tempDir 0 clips.length] ∧
    concatContentFrom tempDir 0 clips.length =
      ((manifestLines tempDir 0 clips.length).map (fun l => l ++ "\n")).foldr
        (fun x y => x ++ y) "" ∧
    (manifestLines tempDir 0 clips.length).length = clips.length ∧
    (∀ k, k < clips.length →
      (manifestLines tempDir 0 clips.length)[k]? =
        some ("file \x27" ++ normalizeSlashes (segPath tempDir k) ++ "\x27")) ∧
    (∀ k, '\\' ∉ (normalizeSlashes (segPath tempDir k)).data) := by
  refine ⟨manifest_export_allOk env tempDir clips a o hf hc ht he hm1 hm2 hx,
    concatContentFrom_eq_fold tempDir clips.length 0,
    manifestLines_length tempDir clips.length 0, ?_, fun k => normalizeSlashes_no_backslash _⟩
  intro k hk
  have := manifestLines_getElem tempDir clips.length 0 k hk
  simpa [manifestLine] using this

/-- Witness for C6: an all-success run on a one-clip list. -/
theorem manifest_content_spec_witness :
    manifestWrites (export_video allOkEnv "/tmp/rvj_export"
        [⟨"a.mp4", 0, 5⟩] "music.mp3" "out.mp4").events =
      [concatContentFrom "/tmp/rvj_export" 0 1] :=
  (manifest_content_spec allOkEnv "/tmp/rvj_export" [⟨"a.mp4", 0, 5⟩]
    "music.mp3" "out.mp4" (by simp) rfl (Or.inr rfl) (fun _ => rfl)
    (fun _ => rfl) rfl rfl rfl).1

/-- A clip whose `end_time` is strictly below its `start_time`, so its
derived duration is negative. -/
def badClip : ClipData :=
  ⟨"a.mp4", 5, 3⟩

/-- Counterexample to C2: `export_video` performs no input validation.
On a clip with `endTime ≤ startTime` (duration `-2`) it spawns the trim
process for that clip and, when every external process succeeds, returns
`Ok`; it also returns `Ok` on an empty clip list.  No `InvalidClipRange`
failure exists on any path. -/
theorem no_validation_cex :
    clipDuration badClip < 0 ∧
    (export_video allOkEnv "/tmp/rvj_export" [badClip] "music.mp3" "out.mp4").outcome =
      RunOutcome.ok "out.mp4" ∧
    trimSpawnIndices
      (export_video allOkEnv "/tmp/rvj_export" [badClip] "music.mp3" "out.mp4").events =
      [0] ∧
    (export_video allOkEnv "/tmp/rvj_export" ([] : List ClipData) "music.mp3" "out.mp4").outcome =
      RunOutcome.ok "out.mp4" := by
  refine ⟨by norm_num [clipDuration, badClip], ?_, ?_, ?_⟩
  · exact outcome_export_allOk allOkEnv "/tmp/rvj_export" [badClip] "music.mp3" "out.mp4"
      rfl (Or.inr rfl) (fun _ => rfl) (fun _ => rfl) rfl rfl rfl
  · have := trims_export_allOk allOkEnv "/tmp/rvj_export" [badClip] "music.mp3" "out.mp4"
      rfl (Or.inr rfl) (fun _ => rfl) (fun _ => rfl) rfl rfl rfl
    simpa using this
  · exact outcome_export_allOk allOkEnv "/tmp/rvj_export" [] "music.mp3" "out.mp4"
      rfl (Or.inr rfl) (fun _ => rfl) (fun _ => rfl) rfl rfl rfl

/-- C2 as amended: `export_video` validates nothing about the clip list.
Whatever the clips are — empty, or containing clips with
`endTime ≤ startTime` — when every external effect succeeds the run
spawns one trim per clip, in input order, and returns `Ok(output_path)`;
no clip-range check precedes the spawns. -/
theorem no_validation_export_proceeds (env : Env) (tempDir : String)
    (clips : List ClipData) (a o : String)
    (hf : env.ffmpegExists = true)
    (hc : env.tempDirExists = true ∨ env.createTempOk = true)
    (ht : ∀ i, env.trimOk i = true)
    (he : ∀ i, env.emitOk i = true)
    (hm1 : env.manifestCreateOk = true)
    (hm2 : env.manifestWriteOk = true)
    (hx : env.muxOk = true) :
    (export_video env tempDir clips a o).outcome = RunOutcome.ok o ∧
    trimSpawnIndices (export_video env tempDir clips a o).events =
      List.range clips.length :=
  ⟨outcome_export_allOk env tempDir clips a o hf hc ht he hm1 hm2 hx,
   trims_export_allOk env tempDir clips a o hf hc ht he hm1 hm2 hx⟩

/-- Witness for the amended C2: the invalid-range clip list `[badClip]`. -/
theorem no_validation_export_proceeds_witness :
    (export_video allOkEnv "/tmp/rvj_export" [badClip] "music.mp3" "out.mp4").outcome =
      RunOutcome.ok "out.mp4" ∧
    trimSpawnIndices
      (export_video allOkEnv "/tmp/rvj_export" [badClip] "music.mp3" "out.mp4").events =
      List.range 1 :=
  no_validation_export_proceeds allOkEnv "/tmp/rvj_export" [badClip] "music.mp3" "out.mp4"
    rfl (Or.inr rfl) (fun _ => rfl) (fun _ => rfl) rfl rfl rfl

/-- Counterexample to C3: with `N = 2` clips, the value emitted after the
first trim is `16` — the `as u8` cast truncates `(1/3)*50 ≈ 16.67` —
while the claimed rounded-to-nearest value `round((1/(2+1))*50)` is `17`. -/
theorem progress_rounding_cex :
    (emittedPercents
      (export_video allOkEnv "/tmp/rvj_export" [badClip, badClip]
        "music.mp3" "out.mp4").events)[0]? = some 16 ∧
    round ((((0 : ℚ) + 1) / (2 + 1)) * 50) = 17 ∧ (16 : Nat) ≠ 17 := by
  refine ⟨?_, ?_, by decide⟩
  · have hemit := emitted_export_allOk allOkEnv "/tmp/rvj_export" [badClip, badClip]
      "music.mp3" "out.mp4" rfl (Or.inr rfl) (fun _ => rfl) (fun _ => rfl) rfl rfl rfl
    rw [hemit]
    rfl
  · have h1 : (((0 : ℚ) + 1) / (2 + 1)) * 50 = 50 / 3 := by norm_num
    rw [h1, round_eq]
    have h2 : ((50 : ℚ) / 3 + 1 / 2) = 103 / 6 := by norm_num
    rw [h2]
    rw [Int.floor_eq_iff]
    norm_num

/-- C3 as amended: for every `1 ≤ c ≤ N`, the progress value emitted
after the `c`-th trim on an all-success run is `progressOf N (c-1)` — the
truncation (not rounding) of the double computation — and away from the
single floating-point boundary ratio `29/50` that truncation equals
`⌊50 c / (N+1)⌋`. -/
theorem progress_truncation (env : Env) (tempDir : String)
    (clips : List ClipData) (a o : String) (c : Nat)
    (hf : env.ffmpegExists = true)
    (hc : env.tempDirExists = true ∨ env.createTempOk = true)
    (ht : ∀ i, env.trimOk i = true)
    (he : ∀ i, env.emitOk i = true)
    (hm1 : env.manifestCreateOk = true)
    (hm2 : env.manifestWriteOk = true)
    (hx : env.muxOk = true)
    (hc1 : 1 ≤ c) (hc2 : c ≤ clips.length) :
    (emittedPercents (export_video env tempDir clips a o).events)[c - 1]? =
      some (progressOf clips.length (c - 1)) ∧
    (50 * c ≠ 29 * (clips.length + 1) →
      progressOf clips.length (c - 1) = 50 * c / (clips.length + 1)) := by
  constructor
  · rw [emitted_export_allOk env tempDir clips a o hf hc ht he hm1 hm2 hx]
    have hlen : (percentsFrom clips.length 0 clips.length).length = clips.length :=
      percentsFrom_length clips.length clips.length 0
    rw [List.getElem?_append_left (by omega)]
    have := percentsFrom_getElem clips.length clips.length 0 (c - 1) (by omega)
    simpa using this
  · intro hq
    have hcc : c - 1 + 1 = c := by omega
    unfold progressOf
    rw [hcc, if_neg hq]

/-- Witness for the amended C3: one clip, `c = 1`; the emitted value is
`progressOf 1 0 = ⌊50/2⌋ = 25`. -/
theorem progress_truncation_witness :
    (emittedPercents
      (export_video allOkEnv "/tmp/rvj_export" [badClip] "music.mp3" "out.mp4").events)[0]? =
      some 25 := by
  have h := progress_truncation allOkEnv "/tmp/rvj_export" [badClip] "music.mp3" "out.mp4" 1
    rfl (Or.inr rfl) (fun _ => rfl) (fun _ => rfl) rfl rfl rfl (by decide) (by decide)
  have h2 := h.1
  norm_num [progressOf] at h2
  exact h2

/-- Fifty identical clips: enough for the first trim's progress value,
`⌊50/51⌋`, to truncate to zero. -/
def fiftyClips : List ClipData :=
  List.replicate 50 ⟨"a.mp4", 0, 5⟩

/-- Counterexample to C4: on a fully successful run with `N = 50` clips,
the first emitted progress value is `0`, violating the claimed strict
lower bound `0 < p` for trim-stage values. -/
theorem progress_zero_cex :
    (export_video allOkEnv "/tmp/rvj_export" fiftyClips "music.mp3" "out.mp4").outcome =
      RunOutcome.ok "out.mp4" ∧
    (emittedPercents
      (export_video allOkEnv "/tmp/rvj_export" fiftyClips "music.mp3" "out.mp4").events)[0]? =
      some 0 := by
  constructor
  · exact outcome_export_allOk allOkEnv "/tmp/rvj_export" fiftyClips "music.mp3" "out.mp4"
      rfl (Or.inr rfl) (fun _ => rfl) (fun _ => rfl) rfl rfl rfl
  · rw [emitted_export_allOk allOkEnv "/tmp/rvj_export" fiftyClips "music.mp3" "out.mp4"
      rfl (Or.inr rfl) (fun _ => rfl) (fun _ => rfl) rfl rfl rfl]
    have hlen : fiftyClips.length = 50 := by simp [fiftyClips]
    rw [hlen]
    rw [List.getElem?_append_left (by rw [percentsFrom_length]; omega)]
    have := percentsFrom_getElem 50 50 0 0 (by omega)
    rw [this]
    norm_num [progressOf]

/-- C4 as amended: on a fully successful run with `N ≥ 1` clips the
emitted progress sequence is the trim-stage values followed by `100`; it
is non-decreasing; every trim-stage value `p` satisfies `0 ≤ p ≤ 50`
(`0 < p` fails, see the counterexample); the last emitted value is `100`,
and `100` is emitted exactly once. -/
theorem progress_monotone_bounded (env : Env) (tempDir : String)
    (clips : List ClipData) (a o : String)
    (hf : env.ffmpegExists = true)
    (hc : env.tempDirExists = true ∨ env.createTempOk = true)
    (ht : ∀ i, env.trimOk i = true)
    (he : ∀ i, env.emitOk i = true)
    (hm1 : env.manifestCreateOk = true)
    (hm2 : env.manifestWriteOk = true)
    (hx : env.muxOk = true)
    (hN : 1 ≤ clips.length) :
    (export_video env tempDir clips a o).outcome = RunOutcome.ok o ∧
    emittedPercents (export_video env tempDir clips a o).events =
      percentsFrom clips.length 0 clips.length ++ [100] ∧
    List.Chain' (fun x y => x ≤ y)
      (emittedPercents (export_video env tempDir clips a o).events) ∧
    (∀ p ∈ percentsFrom clips.length 0 clips.length, p ≤ 50) ∧
    (emittedPercents (export_video env tempDir clips a o).events).getLast? =
      some 100 ∧
    (emittedPercents (export_video env tempDir clips a o).events).count 100 = 1 := by
  have hemit := emitted_export_allOk env tempDir clips a o hf hc ht he hm1 hm2 hx
  have hbound : ∀ p ∈ percentsFrom clips.length 0 clips.length, p ≤ 49 :=
    percentsFrom_bounded clips.length clips.length 0 (by omega)
  refine ⟨outcome_export_allOk env tempDir clips a o hf hc ht he hm1 hm2 hx,
    hemit, ?_, fun p hp => by have := hbound p hp; omega, ?_, ?_⟩
  · rw [hemit]
    refine List.chain'_append.mpr
      ⟨percentsFrom_chain clips.length clips.length 0, List.chain'_singleton 100, ?_⟩
    intro x hx2 y hy
    simp only [List.head?_cons, Option.mem_def, Option.some.injEq] at hy
    have hxmem : x ∈ percentsFrom clips.length 0 clips.length :=
      List.mem_of_mem_getLast? hx2
    have := hbound x hxmem
    omega
  · rw [hemit]
    exact List.getLast?_concat _
  · rw [hemit, List.count_append]
    have hzero : (percentsFrom clips.length 0 clips.length).count 100 = 0 := by
      refine List.count_eq_zero.mpr ?_
      intro hmem
      have := hbound 100 hmem
      omega
    rw [hzero]
    rfl

/-- Witness for the amended C4: the one-clip all-success run. -/
theorem progress_monotone_bounded_witness :
    (export_video allOkEnv "/tmp/rvj_export" [badClip] "music.mp3" "out.mp4").outcome =
      RunOutcome.ok "out.mp4" ∧
    emittedPercents
      (export_video allOkEnv "/tmp/rvj_export" [badClip] "music.mp3" "out.mp4").events =
      percentsFrom 1 0 1 ++ [100] ∧
    List.Chain' (fun x y => x ≤ y)
      (emittedPercents
        (export_video allOkEnv "/tmp/rvj_export" [badClip] "music.mp3" "out.mp4").events) ∧
    (∀ p ∈ percentsFrom 1 0 1, p ≤ 50) ∧
    (emittedPercents
      (export_video allOkEnv "/tmp/rvj_export" [badClip] "music.mp3" "out.mp4").events).getLast? =
      some 100 ∧
    (emittedPercents
      (export_video allOkEnv "/tmp/rvj_export" [badClip] "music.mp3" "out.mp4").events).count 100 =
      1 :=
  progress_monotone_bounded allOkEnv "/tmp/rvj_export" [badClip] "music.mp3" "out.mp4"
    rfl (Or.inr rfl) (fun _ => rfl) (fun _ => rfl) rfl rfl rfl (by decide)

/-- An environment in which every trim process exits non-zero. -/
def trimFailEnv : Env :=
  { allOkEnv with trimOk := fun _ => false }

/-- Counterexample to C1: when the (only) trim fails, `export_video`
returns `Err` for clip 0 and the scratch workspace still exists after the
call — cleanup did not run on this failure path. -/
theorem cleanup_skipped_cex :
    (export_video trimFailEnv "/tmp/rvj_export" [badClip] "music.mp3" "out.mp4").outcome =
      RunOutcome.err (trimErrMsg 0) ∧
    (export_video trimFailEnv "/tmp/rvj_export" [badClip] "music.mp3" "out.mp4").tempExists =
      true := by
  exact ⟨rfl, rfl⟩

/-- C1 as amended: workspace removal is attempted only on the success
path.  On every `Err` return no removal event occurs (the scratch
directory, once created, persists); when the run returns `Ok`, exactly
one removal of the workspace is attempted, and its own failure is
ignored — the call still returns `Ok`, with the directory surviving
exactly when removal failed. -/
theorem cleanup_only_on_success (env : Env) (tempDir : String)
    (clips : List ClipData) (a o : String) :
    (∀ m, (export_video env tempDir clips a o).outcome = RunOutcome.err m →
      removeDirEvents (export_video env tempDir clips a o).events = []) ∧
    ((export_video env tempDir clips a o).outcome = RunOutcome.ok o →
      removeDirEvents (export_video env tempDir clips a o).events = [tempDir] ∧
      (export_video env tempDir clips a o).tempExists = !env.removeOk) := by
  have hrem : (trimLoop env tempDir clips.length 0 clips).1.filterMap eventRemovedDir = [] :=
    removeDirEvents_trimLoop env tempDir clips.length clips 0
  cases hf : env.ffmpegExists with
  | false =>
    constructor
    · intro m _
      simp [export_video, hf, removeDirEvents]
    · intro h
      simp [export_video, hf] at h
  | true =>
    cases hcr : (!env.tempDirExists && !env.createTempOk) with
    | true =>
      constructor
      · intro m _
        simp [export_video, hf, hcr, removeDirEvents, eventRemovedDir]
      · intro h
        simp [export_video, hf, hcr] at h
    | false =>
      cases habort : (trimLoop env tempDir clips.length 0 clips).2.2 with
      | some ab =>
        cases ab with
        | trimFailed i =>
          constructor
          · intro m _
            simp [export_video, hf, hcr, habort, removeDirEvents,
              List.filterMap_append, hrem]
            cases env.tempDirExists <;> simp [eventRemovedDir]
          · intro h
            simp [export_video, hf, hcr, habort] at h
        | emitFailed =>
          constructor
          · intro m h
            simp [export_video, hf, hcr, habort] at h
          · intro h
            simp [export_video, hf, hcr, habort] at h
      | none =>
        cases hm1 : env.manifestCreateOk with
        | false =>
          constructor
          · intro m _
            simp [export_video, hf, hcr, habort, hm1, removeDirEvents,
              List.filterMap_append, hrem]
            cases env.tempDirExists <;> simp [eventRemovedDir]
          · intro h
            simp [export_video, hf, hcr, habort, hm1] at h
        | true =>
          cases hm2 : env.manifestWriteOk with
          | false =>
            constructor
            · intro m _
              simp [export_video, hf, hcr, habort, hm1, hm2, removeDirEvents,
                List.filterMap_append, hrem]
              cases env.tempDirExists <;> simp [eventRemovedDir]
            · intro h
              simp [export_video, hf, hcr, habort, hm1, hm2] at h
          | true =>
            cases hx : env.muxOk with
            | false =>
              constructor
              · intro m _
                simp [export_video, hf, hcr, habort, hm1, hm2, hx, removeDirEvents,
                  List.filterMap_append, hrem]
                cases env.tempDirExists <;> simp [eventRemovedDir]
              · intro h
                simp [export_video, hf, hcr, habort, hm1, hm2, hx] at h
            | true =>
              cases hemit : env.emitOk clips.length with
              | false =>
                constructor
                · intro m h
                  simp [export_video, hf, hcr, habort, hm1, hm2, hx, hemit] at h
                · intro h
                  simp [export_video, hf, hcr, habort, hm1, hm2, hx, hemit] at h
              | true =>
                constructor
                · intro m h
                  simp [export_video, hf, hcr, habort, hm1, hm2, hx, hemit] at h
                · intro _
                  constructor
                  · simp [export_video, hf, hcr, habort, hm1, hm2, hx, hemit,
                      removeDirEvents, List.filterMap_append, hrem]
                    cases env.tempDirExists <;> simp [eventRemovedDir]
                  · simp [export_video, hf, hcr, habort, hm1, hm2, hx, hemit]

/-- Witness for the amended C1: the all-success run removes the
workspace exactly once and it no longer exists afterwards; applied
through the success conjunct of the theorem. -/
theorem cleanup_only_on_success_witness :
    removeDirEvents
      (export_video allOkEnv "/tmp/rvj_export" [badClip] "music.mp3" "out.mp4").events =
      ["/tmp/rvj_export"] ∧
    (export_video allOkEnv "/tmp/rvj_export" [badClip] "music.mp3" "out.mp4").tempExists =
      !allOkEnv.removeOk :=
  (cleanup_only_on_success allOkEnv "/tmp/rvj_export" [badClip] "music.mp3" "out.mp4").2
    (outcome_export_allOk allOkEnv "/tmp/rvj_export" [badClip] "music.mp3" "out.mp4"
      rfl (Or.inr rfl) (fun _ => rfl) (fun _ => rfl) rfl rfl rfl)

/-- Counterexample to C7: exporting to an output path in a directory the
run never created — the only directory `export_video` ever creates is the
scratch workspace, there is no creation of the output path's parent and
no `OutputDirCreateFailed` error anywhere in the function. -/
theorem no_output_parent_dir_cex :
    (export_video allOkEnv "/tmp/rvj_export" [badClip] "music.mp3"
      "/fresh/missing/out.mp4").outcome = RunOutcome.ok "/fresh/missing/out.mp4" ∧
    createdDirs (export_video allOkEnv "/tmp/rvj_export" [badClip] "music.mp3"
      "/fresh/missing/out.mp4").events = ["/tmp/rvj_export"] := by
  exact ⟨rfl, rfl⟩

/-- C7 as amended: `export_video` never creates the output path's parent
directory; the only directory-creation effect it can perform, on any path
through the function, is creating the scratch workspace itself. -/
theorem only_workspace_dir_created (env : Env) (tempDir : String)
    (clips : List ClipData) (a o : String) (p : String)
    (hp : p ∈ createdDirs (export_video env tempDir clips a o).events) :
    p = tempDir := by
  have hcd : (trimLoop env tempDir clips.length 0 clips).1.filterMap eventCreatedDir = [] :=
    createdDirs_trimLoop env tempDir clips.length clips 0
  cases hf : env.ffmpegExists with
  | false => simp [export_video, hf, createdDirs] at hp
  | true =>
    cases hcr : (!env.tempDirExists && !env.createTempOk) with
    | true =>
      simp [export_video, hf, hcr, createdDirs, eventCreatedDir] at hp
      exact hp
    | false =>
      cases htd : env.tempDirExists with
      | true =>
        cases habort : (trimLoop env tempDir clips.length 0 clips).2.2 with
        | some ab =>
          cases ab <;>
            simp [export_video, hf, hcr, htd, habort, createdDirs,
              List.filterMap_append, hcd] at hp
        | none =>
          cases hm1 : env.manifestCreateOk <;>
            cases hm2 : env.manifestWriteOk <;>
              cases hx : env.muxOk <;>
                cases hemit : env.emitOk clips.length <;>
                  simp [export_video, hf, hcr, htd, habort, hm1, hm2, hx, hemit,
                    createdDirs, List.filterMap_append, hcd, eventCreatedDir] at hp
      | false =>
        have hct : env.createTempOk = true := by simpa [htd] using hcr
        cases habort : (trimLoop env tempDir clips.length 0 clips).2.2 with
        | some ab =>
          cases ab <;>
            · simp [export_video, hf, hct, htd, habort, createdDirs,
                List.filterMap_append, hcd, eventCreatedDir] at hp
              exact hp
        | none =>
          cases hm1 : env.manifestCreateOk <;>
            cases hm2 : env.manifestWriteOk <;>
              cases hx : env.muxOk <;>
                cases hemit : env.emitOk clips.length <;>
                  · simp [export_video, hf, hct, htd, habort, hm1, hm2, hx, hemit,
                      createdDirs, List.filterMap_append, hcd, eventCreatedDir] at hp
                    exact hp

/-- Witness for the amended C7: the hypothesis is satisfiable — the
workspace path is among the created directories of a concrete run — and
the conclusion identifies it with the workspace path. -/
theorem only_workspace_dir_created_witness :
    "/tmp/rvj_export" ∈ createdDirs
      (export_video allOkEnv "/tmp/rvj_export" [badClip] "music.mp3" "out.mp4").events ∧
    ("/tmp/rvj_export" : String) = "/tmp/rvj_export" :=
  ⟨by
    rw [show createdDirs
      (export_video allOkEnv "/tmp/rvj_export" [badClip] "music.mp3" "out.mp4").events =
      ["/tmp/rvj_export"] from rfl]
    exact List.mem_singleton.mpr rfl,
   only_workspace_dir_created allOkEnv "/tmp/rvj_export" [badClip] "music.mp3" "out.mp4"
     "/tmp/rvj_export"
     (by
       rw [show createdDirs
         (export_video allOkEnv "/tmp/rvj_export" [badClip] "music.mp3" "out.mp4").events =
         ["/tmp/rvj_export"] from rfl]
       exact List.mem_singleton.mpr rfl)⟩

/-- C8: if every trim before index `i` succeeds (and its progress
emission succeeds) but the trim process for clip `i` exits non-zero, the
run returns the error naming clip `i`, writes no manifest, and spawns no
mux invocation — the manifest can only be written after all trims
succeed. -/
theorem trim_failure_aborts (env : Env) (tempDir : String)
    (clips : List ClipData) (a o : String) (i : Nat)
    (hf : env.ffmpegExists = true)
    (hc : env.tempDirExists = true ∨ env.createTempOk = true)
    (htlt : ∀ j, j < i → env.trimOk j = true)
    (helt : ∀ j, j < i → env.emitOk j = true)
    (hti : env.trimOk i = false)
    (hi : i < clips.length) :
    (export_video env tempDir clips a o).outcome = RunOutcome.err (trimErrMsg i) ∧
    manifestWrites (export_video env tempDir clips a o).events = [] ∧
    muxSpawns (export_video env tempDir clips a o).events = [] := by
  have hcond : (!env.tempDirExists && !env.createTempOk) = false := by
    rcases hc with h | h <;> simp [h]
  have habort : (trimLoop env tempDir clips.length 0 clips).2.2 =
      some (TrimAbort.trimFailed i) := by
    have := trimLoop_failAt env tempDir clips.length clips 0 i hi
      (fun j hj => by simpa using htlt j hj)
      (fun j hj => by simpa using helt j hj)
      (by simpa using hti)
    simpa using this
  have hman : (trimLoop env tempDir clips.length 0 clips).1.filterMap eventManifest = [] :=
    manifestWrites_trimLoop env tempDir clips.length clips 0
  have hmux : (trimLoop env tempDir clips.length 0 clips).1.filterMap eventMux = [] :=
    muxSpawns_trimLoop env tempDir clips.length clips 0
  refine ⟨?_, ?_, ?_⟩
  · simp [export_video, hf, hcond, habort]
  · simp [export_video, hf, hcond, habort, manifestWrites, List.filterMap_append, hman]
    cases env.tempDirExists <;> simp [eventManifest]
  · simp [export_video, hf, hcond, habort, muxSpawns, List.filterMap_append, hmux]
    cases env.tempDirExists <;> simp [eventMux]

/-- An environment in which the trim of clip 1 (and only clip 1) exits
non-zero. -/
def secondTrimFailEnv : Env :=
  { allOkEnv with trimOk := fun i => i != 1 }

/-- Witness for C8: two clips, the second clip's trim fails — matching
the spec scenario where the second clip's source does not exist. -/
theorem trim_failure_aborts_witness :
    (export_video secondTrimFailEnv "/tmp/rvj_export" [badClip, badClip]
      "music.mp3" "out.mp4").outcome = RunOutcome.err (trimErrMsg 1) ∧
    manifestWrites (export_video secondTrimFailEnv "/tmp/rvj_export" [badClip, badClip]
      "music.mp3" "out.mp4").events = [] ∧
    muxSpawns (export_video secondTrimFailEnv "/tmp/rvj_export" [badClip, badClip]
      "music.mp3" "out.mp4").events = [] :=
  trim_failure_aborts secondTrimFailEnv "/tmp/rvj_export" [badClip, badClip]
    "music.mp3" "out.mp4" 1 rfl (Or.inr rfl)
    (fun j hj => by
      have h0 : j = 0 := by omega
      rw [h0]
      rfl)
    (fun _ _ => rfl)
    rfl (by decide)

/-- An environment in which every progress emission fails (for example,
the event channel rejects the payload). -/
def emitFailEnv : Env :=
  { allOkEnv with emitOk := fun _ => false }

/-- C5 (code-bug evidence): the emission code path can panic, and the
export outcome is not independent of emission success.  In two
environments that differ only in whether progress emissions succeed, the
run where the first emission fails ends in a panic — the `.unwrap()` on
`window.emit` at line 83 — while the identical run with successful
emissions returns `Ok`. -/
theorem emit_failure_panics :
    (export_video emitFailEnv "/tmp/rvj_export" [badClip] "music.mp3" "out.mp4").outcome =
      RunOutcome.panicked emitPanicMsg ∧
    (export_video allOkEnv "/tmp/rvj_export" [badClip] "music.mp3" "out.mp4").outcome =
      RunOutcome.ok "out.mp4" := by
  exact ⟨rfl, rfl⟩
